import Mathlib

/-!
# Verification of the job-scraper/analyzer pipeline

Shallow embedding of `src/job_scraper_analyzer.py`.  Python strings are
modelled as Lean `String` (operated on through `List Char`); the regular
expressions appearing in the source are unfolded into explicit character-list
scans with the exact backtracking behaviour of `re.search` on those patterns.
Character classes (`\w`, `\s`, `\d`, case mapping) are modelled at ASCII,
which covers every string the program and its demo data manipulate.

A pandas cell originating from a record dictionary is `NaN` when the key is
absent and a string otherwise; we model such cells as `Option String`
(`none` = `NaN`).  The `skills` and `title` cells are modelled as plain
`String`: the collector (`_safe_extract_text` / `_extract_job_data`) always
stores a string (possibly empty) under every key, and `_preprocess_data`
applies `_extract_skills` to the cell, which requires a string.
-/

namespace JobScraperAnalyzer

/-- ASCII whitespace recognized by Python's `\s` and `str.strip`. -/
def isPySpace (c : Char) : Bool :=
  c == ' ' || c == '\t' || c == '\n' || c == '\r' || c == '\x0b' || c == '\x0c'

/-- Python `str.strip()` on a character list. -/
def stripChars (l : List Char) : List Char :=
  ((l.dropWhile isPySpace).reverse.dropWhile isPySpace).reverse

/-- Python `str.strip()`. -/
def pstrip (s : String) : String := ⟨stripChars s.toList⟩

/-- Python `str.lower()` (ASCII). -/
def pyLower (s : String) : String := ⟨s.toList.map Char.toLower⟩

/-- Helper for Python `str.title()`: the Boolean records whether the previous
character was cased (a letter). -/
def pyTitleAux : Bool → List Char → List Char
  | _, [] => []
  | prevCased, c :: rest =>
    if c.isAlpha then
      (if prevCased then c.toLower else c.toUpper) :: pyTitleAux true rest
    else
      c :: pyTitleAux false rest

/-- Python `str.title()` (ASCII): a letter following a non-letter is
uppercased, other letters are lowercased, non-letters are unchanged. -/
def pyTitle (s : String) : String := ⟨pyTitleAux false s.toList⟩

/-- `listStartsWith hay need`: `need` is a prefix of `hay`. -/
def listStartsWith : List Char → List Char → Bool
  | _, [] => true
  | [], _ :: _ => false
  | a :: as, b :: bs => a == b && listStartsWith as bs

/-- `subAux need hay`: `need` occurs as a contiguous sublist of `hay`. -/
def subAux (need : List Char) : List Char → Bool
  | [] => need.isEmpty
  | c :: t => listStartsWith (c :: t) need || subAux need t

/-- Python `needle in hay` on strings (substring containment). -/
def pyIn (needle hay : String) : Bool := subAux needle.toList hay.toList

/-- Python `\w` at ASCII: letters, digits, underscore. -/
def wordChar (c : Char) : Bool := c.isAlphanum || c == '_'

/-! ## `JobAnalyzer._extract_city` (lines 243-259)

The two patterns tried in order are `^([^,]+)` and `(\w+(?:\s+\w+)?)`,
each run with `re.search` on `location.strip()`; the group is `.strip()`ed.
-/

/-- `re.search(r'^([^,]+)', s)`: anchored, so it matches exactly when `s` is
nonempty and does not start with a comma; the group is the maximal prefix of
non-comma characters (everything before the first comma). -/
def cityPatOne (s : List Char) : Option (List Char) :=
  match s with
  | [] => none
  | c :: rest =>
    if c == ',' then none
    else some ((c :: rest).takeWhile (fun x => !(x == ',')))

/-- `re.search(r'(\w+(?:\s+\w+)?)', s)`: scan for the first word character;
the match is the maximal word-character run there, greedily extended by one
whitespace run plus a second word run when present. -/
def cityPatTwo : List Char → Option (List Char)
  | [] => none
  | c :: rest =>
    if wordChar c then
      let w1 := (c :: rest).takeWhile wordChar
      let r1 := (c :: rest).dropWhile wordChar
      let ws := r1.takeWhile isPySpace
      let r2 := r1.dropWhile isPySpace
      let w2 := r2.takeWhile wordChar
      some (if ws.isEmpty || w2.isEmpty then w1 else w1 ++ ws ++ w2)
    else
      cityPatTwo rest

/-- `JobAnalyzer._extract_city`.  Python's `if not location` is the
empty-string test, since the cell is a string at this point. -/
def extract_city (location : String) : String :=
  if location = "" ∨ location = "Unknown" then "Unknown"
  else
    match cityPatOne (pstrip location).toList with
    | some g => pstrip ⟨g⟩
    | none =>
      match cityPatTwo (pstrip location).toList with
      | some g => pstrip ⟨g⟩
      | none => location

/-! ## `JobAnalyzer._extract_skills` (lines 261-283) -/

/-- The hardcoded `skill_keywords` list. -/
def skill_keywords : List String :=
  ["python", "r", "sql", "excel", "tableau", "power bi", "powerbi",
   "pandas", "numpy", "matplotlib", "seaborn", "plotly",
   "machine learning", "data visualization", "statistics",
   "business intelligence", "etl", "data mining", "analytics",
   "jupyter", "git", "hadoop", "spark", "aws", "azure",
   "mysql", "postgresql", "mongodb", "looker", "qlik"]

/-- The `for skill in skill_keywords` loop body: append `skill.title()` to
`found_skills` when `skill in skills_lower`. -/
def extract_skills_go (skills_lower : String) : List String → List String → List String
  | [], found => found
  | k :: rest, found =>
    extract_skills_go skills_lower rest
      (if pyIn k skills_lower then found ++ [pyTitle k] else found)

/-- `JobAnalyzer._extract_skills`: empty text short-circuits to `[]`
(`if not skills_text`), otherwise the keyword loop runs on the lowering. -/
def extract_skills (skills_text : String) : List String :=
  if skills_text = "" then []
  else extract_skills_go (pyLower skills_text) skill_keywords []

/-! ## `JobScraper._clean_job_data`, salary part (lines 203-208)

`re.search(r'[\d,]+(?:\.\d+)?(?:\s*(?:lakh|LPA|per annum|PA))?', salary)`
and, on a match, replace the salary by `group(0)`; otherwise keep it.
-/

/-- A character of the class `[\d,]`. -/
def isDigitOrComma (c : Char) : Bool := c.isDigit || c == ','

/-- Attempt the salary pattern anchored at the start of `cs`, returning the
matched text.  `[\d,]+` is the maximal run of digits/commas (it must be
nonempty); `(?:\.\d+)?` consumes a dot plus a maximal nonempty digit run when
present; `(?:\s*(?:lakh|LPA|per annum|PA))?` consumes a maximal whitespace
run followed by the first literal alternative that matches there (shortening
the whitespace run cannot help, since no alternative starts with
whitespace). -/
def salaryMatchAt (cs : List Char) : Option (List Char) :=
  let num := cs.takeWhile isDigitOrComma
  if num.isEmpty then none
  else
    let rest := cs.dropWhile isDigitOrComma
    let fracDigits := (rest.drop 1).takeWhile Char.isDigit
    let frac : List Char :=
      match rest with
      | '.' :: _ => if fracDigits.isEmpty then [] else '.' :: fracDigits
      | _ => []
    let rest2 := rest.drop frac.length
    let ws := rest2.takeWhile isPySpace
    let afterWs := rest2.dropWhile isPySpace
    let sfx : List Char :=
      if listStartsWith afterWs "lakh".toList then "lakh".toList
      else if listStartsWith afterWs "LPA".toList then "LPA".toList
      else if listStartsWith afterWs "per annum".toList then "per annum".toList
      else if listStartsWith afterWs "PA".toList then "PA".toList
      else []
    if sfx.isEmpty then some (num ++ frac) else some (num ++ frac ++ ws ++ sfx)

/-- `re.search` with the salary pattern: try each start position from the
left; the pattern can only start on a digit or comma. -/
def salarySearch : List Char → Option (List Char)
  | [] => none
  | c :: t =>
    match salaryMatchAt (c :: t) with
    | some m => some m
    | none => salarySearch t

/-- The salary branch of `JobScraper._clean_job_data`: the matched substring
replaces the text, and the original text is kept when there is no match. -/
def cleanSalaryText (s : String) : String :=
  match salarySearch s.toList with
  | some m => ⟨m⟩
  | none => s

/-- The salary field update of `_clean_job_data` on a pandas-style cell.
Python guards with `if job_data.get('salary'):`, which is falsy for a
missing key and for the empty string. -/
def clean_salary_field : Option String → Option String
  | none => none
  | some s => if s = "" then some s else some (cleanSalaryText s)

/-! ## Records and `JobAnalyzer._preprocess_data` (lines 210-241) -/

/-- A raw job record as built by `_extract_job_data`.  `company`,
`location` and `salary` cells are `Option String` (`none` models a pandas
`NaN` from a missing key); `title` and `skills` are strings, as the
collector always produces and the preprocessing requires. -/
structure RawJob where
  title : String
  company : Option String
  location : Option String
  salary : Option String
  skills : String
deriving Repr, DecidableEq

/-- A row of the normalized table after `_preprocess_data`. -/
structure NormJob where
  title : String
  company : String
  location : String
  salary : Option String
  city : String
  extracted_skills : List String
deriving Repr, DecidableEq

/-- One row of `_preprocess_data`: `location.fillna('Unknown')`, then
`.str.title()`, then `city` from the title-cased location;
`company.fillna('Unknown')`; `extracted_skills` from the skills text.
The salary column is not touched by the analyzer. -/
def normRow (r : RawJob) : NormJob :=
  let loc := pyTitle (r.location.getD "Unknown")
  { title := r.title
    company := r.company.getD "Unknown"
    location := loc
    salary := r.salary
    city := extract_city loc
    extracted_skills := extract_skills r.skills }

/-- `_preprocess_data` over the whole table: on an empty frame it returns
immediately (no derived columns, zero rows); otherwise every row is
enriched in place. -/
def preprocess (jobs : List RawJob) : List NormJob :=
  if jobs.isEmpty then [] else jobs.map normRow

/-! ## `JobAnalyzer.generate_summary` (lines 285-301) and
`JobAnalyzer.get_top_skills` (lines 316-334) -/

/-- The summary dictionary returned by `generate_summary`. -/
structure Summary where
  total_jobs : Nat
  unique_companies : Nat
  unique_locations : Nat
  jobs_with_salary : Nat
deriving Repr, DecidableEq

/-- pandas `Series.nunique()` on a string column with no `NaN`s. -/
def nuniqueStr (l : List String) : Nat := l.dedup.length

/-- `generate_summary`.  A column exists in the frame exactly when some
input record supplies the key; with no input records there are no columns,
so the three guarded counts fall back to `0` (mirrored by the
`jobs.isEmpty` tests).  `notna().sum()` counts the non-`NaN` cells. -/
def generate_summary (jobs : List RawJob) : Summary :=
  let t := preprocess jobs
  { total_jobs := t.length
    unique_companies := if jobs.isEmpty then 0 else nuniqueStr (t.map (·.company))
    unique_locations := if jobs.isEmpty then 0 else nuniqueStr (t.map (·.location))
    jobs_with_salary := if jobs.isEmpty then 0 else (t.filter (fun n => n.salary.isSome)).length }

/-- The flattening step of `get_top_skills`: all extracted skills across
the table, in row order. -/
def all_skills (jobs : List RawJob) : List String :=
  ((preprocess jobs).map (·.extracted_skills)).flatten

/-- The count `get_top_skills`'s `Counter` assigns to the entry `skill`
(a title-cased keyword): its multiplicity in the flattened skill list. -/
def top_skills_count (jobs : List RawJob) (skill : String) : Nat :=
  (all_skills jobs).count skill

/-! ## `JobScraper.scrape_jobs` (lines 41-79)

The per-page body fetches and parses one page inside a `try` whose
`except` clauses `continue` to the next page.  We model the sequence of
per-page outcomes: `Except.error` is a page whose fetch raised
(`requests.RequestException` or any other exception), `Except.ok` carries
the records extracted from that page.  `self.jobs_data.extend(...)`
appends in order. -/
def scrapeStep (acc : List RawJob) (page : Except String (List RawJob)) : List RawJob :=
  match page with
  | Except.ok listings => acc ++ listings
  | Except.error _ => acc

/-- The page loop of `scrape_jobs`, folded over the per-page outcomes. -/
def scrape_jobs (pages : List (Except String (List RawJob))) : List RawJob :=
  pages.foldl scrapeStep []

/-! ## Spec-side definitions

These two render clauses of the specification verbatim, for comparison
with the code-derived definitions above; they are deliberately NOT taken
from the source. -/

/-- Spec-side: a record "whose salary field is a non-empty string". -/
def specNonemptySalary (r : RawJob) : Bool :=
  match r.salary with
  | some s => !(s == "")
  | none => false

/-- Whitespace tokenizer (accumulator holds the current token reversed). -/
def tokensAux : List Char → List Char → List (List Char)
  | cur, [] => if cur.isEmpty then [] else [cur.reverse]
  | cur, c :: rest =>
    if isPySpace c then
      if cur.isEmpty then tokensAux [] rest else cur.reverse :: tokensAux [] rest
    else
      tokensAux (c :: cur) rest

/-- Spec-side: "the first one-or-two whitespace-delimited tokens of the
location" — the first two whitespace-delimited tokens rejoined by a single
space (just the first when only one exists). -/
def specFirstTwoTokens (s : String) : String :=
  match (tokensAux [] s.toList).take 2 with
  | [] => ""
  | [t] => ⟨t⟩
  | t1 :: t2 :: _ => ⟨t1 ++ [' '] ++ t2⟩

/-! ## Concrete records used in counterexamples and witnesses -/

/-- A record whose salary cell is present but empty. -/
def salaryEmptyJob : RawJob :=
  { title := "Data Analyst", company := some "TechCorp", location := some "B",
    salary := some "", skills := "" }

/-- A record with a comma-free three-token location. -/
def threeTokenLocJob : RawJob :=
  { title := "t", company := none, location := some "Navi Mumbai Area",
    salary := none, skills := "" }

/-- A record whose location cell is present but empty. -/
def locEmptyJob : RawJob :=
  { title := "t", company := some "c", location := some "", salary := none,
    skills := "" }

/-- A record whose location cell is missing (pandas `NaN`). -/
def locMissingJob : RawJob :=
  { title := "t", company := none, location := none, salary := none,
    skills := "" }

/-- A record whose skills text mentions Python. -/
def pythonSkillsJob : RawJob :=
  { title := "a", company := none, location := none, salary := none,
    skills := "Python and SQL" }

/-- A record whose skills text does not mention Python. -/
def excelSkillsJob : RawJob :=
  { title := "b", company := none, location := none, salary := none,
    skills := "excel only" }

/-! ## Helper lemmas -/

/-- The empty-frame early return of `_preprocess_data` agrees with mapping
over the rows, so preprocessing is a row map on every input. -/
theorem preprocess_eq_map (jobs : List RawJob) : preprocess jobs = jobs.map normRow := by
  cases jobs with
  | nil => rfl
  | cons r t => rfl

/-- Unrolling the `_extract_skills` accumulator loop: it appends, in keyword
order, the title-casing of every keyword contained in the lowered text. -/
theorem extract_skills_go_eq (s : String) :
    ∀ (ks acc : List String),
      extract_skills_go s ks acc = acc ++ (ks.filter (fun k => pyIn k s)).map pyTitle := by
  intro ks
  induction ks with
  | nil => intro acc; simp [extract_skills_go]
  | cons k rest ih =>
    intro acc
    by_cases h : pyIn k s
    · simp [extract_skills_go, h, ih, List.filter_cons]
    · simp [extract_skills_go, h, ih, List.filter_cons]

/-- `_extract_skills` as a filter-map over the keyword list. -/
theorem extract_skills_eq (s : String) :
    extract_skills s = (skill_keywords.filter (fun k => pyIn k (pyLower s))).map pyTitle := by
  by_cases h : s = ""
  · subst h; decide
  · simp [extract_skills, h, extract_skills_go_eq]

/-- In a list whose image under `f` has no duplicates, the multiplicity of
`f k` in the `f`-image of a filtered sublist is `1` or `0` according to
whether `k` passes the filter. -/
theorem count_map_filter {α β : Type} [DecidableEq α] [DecidableEq β]
    (f : α → β) (p : α → Bool) :
    ∀ (ks : List α) (k : α), (ks.map f).Nodup → k ∈ ks →
      ((ks.filter p).map f).count (f k) = if p k then 1 else 0 := by
  intro ks
  induction ks with
  | nil => intro k _ hk; exact absurd hk (List.not_mem_nil k)
  | cons a t ih =>
    intro k hnd hk
    have hnd2 := hnd
    rw [List.map_cons, List.nodup_cons] at hnd2
    have hfa : f a ∉ (t.map f) := hnd2.1
    have hsub : ∀ x, x ∈ (t.filter p).map f → x ∈ t.map f := by
      intro x hx
      exact List.Sublist.mem hx ((List.filter_sublist t).map f)
    rcases List.mem_cons.mp hk with hka | hkt
    · subst hka
      have hzero : ((t.filter p).map f).count (f k) = 0 :=
        List.count_eq_zero.mpr (fun hmem => hfa (hsub _ hmem))
      by_cases hp : p k
      · simp [List.filter_cons, hp, List.count_cons, hzero]
      · simp [List.filter_cons, hp, hzero]
    · have hfk : f k ∈ t.map f := List.mem_map_of_mem f hkt
      have hne : ¬ (f k = f a) := fun h => hfa (h ▸ hfk)
      by_cases hp : p a
      · simp [List.filter_cons, hp, List.count_cons, hne, ih k hnd2.2 hkt]
      · simp [List.filter_cons, hp, ih k hnd2.2 hkt]

/-- The title-cased forms of the thirty skill keywords are pairwise
distinct, so they are valid `Counter` keys with no collisions. -/
theorem skill_titles_nodup : (skill_keywords.map pyTitle).Nodup := by decide

/-- Per-record multiplicity: a title-cased keyword occurs in a record's
extracted skills once when the lowered skills text contains the keyword,
else not at all. -/
theorem count_extract_skills (s k : String) (hk : k ∈ skill_keywords) :
    (extract_skills s).count (pyTitle k) = if pyIn k (pyLower s) then 1 else 0 := by
  rw [extract_skills_eq]
  exact count_map_filter pyTitle (fun k => pyIn k (pyLower s)) skill_keywords k
    skill_titles_nodup hk

/-- A single character is a contiguous substring of a list exactly when it
is a member. -/
theorem subAux_singleton (c : Char) :
    ∀ l : List Char, c ∈ l → subAux [c] l = true := by
  intro l
  induction l with
  | nil => intro h; exact absurd h (List.not_mem_nil c)
  | cons a t ih =>
    intro h
    rcases List.mem_cons.mp h with h1 | h2
    · subst h1
      simp [subAux, listStartsWith]
    · simp [subAux, ih h2]

/-- Folding the scrape loop from any accumulator prepends the accumulator. -/
theorem scrape_foldl_acc :
    ∀ (pages : List (Except String (List RawJob))) (acc : List RawJob),
      pages.foldl scrapeStep acc = acc ++ scrape_jobs pages := by
  intro pages
  induction pages with
  | nil => intro acc; simp [scrape_jobs]
  | cons p rest ih =>
    intro acc
    cases p with
    | ok listings =>
      simp only [scrape_jobs, List.foldl_cons, scrapeStep, List.nil_append]
      rw [ih, ih listings, List.append_assoc]
    | error e =>
      simp only [scrape_jobs, List.foldl_cons, scrapeStep, List.nil_append]
      rw [ih, ih, List.nil_append]

/-! ## Claim theorems -/

/-- C1 (counterexample): with a single record whose salary cell is the empty
string, `generate_summary` reports `jobs_with_salary = 1`, while the number
of records "whose salary field is a non-empty string" is `0`: `notna()`
counts the empty string, refuting the claim as stated. -/
theorem c1_counterexample :
    (generate_summary [salaryEmptyJob]).jobs_with_salary = 1
    ∧ ([salaryEmptyJob].filter specNonemptySalary).length = 0 := by
  decide

/-- C1 (amended): `jobs_with_salary` equals the number of records whose
salary cell is present (non-null); a present empty string is counted. -/
theorem c1_amended (jobs : List RawJob) :
    (generate_summary jobs).jobs_with_salary
      = (jobs.filter (fun r => r.salary.isSome)).length := by
  have key : ∀ l : List RawJob,
      ((l.map normRow).filter (fun n => n.salary.isSome)).length
        = (l.filter (fun r => r.salary.isSome)).length := by
    intro l
    induction l with
    | nil => rfl
    | cons a t ih =>
      by_cases h : a.salary.isSome <;>
        simp [List.filter_cons, normRow, h, ih]
  cases jobs with
  | nil => rfl
  | cons r t =>
    show (if (r :: t).isEmpty then 0
          else ((preprocess (r :: t)).filter (fun n => n.salary.isSome)).length) = _
    rw [preprocess_eq_map]
    simpa using key (r :: t)

/-- C2 (counterexample): for the comma-free location "Navi Mumbai Area" the
derived city is the whole location (the anchored before-a-comma pattern
matches everything), not the claimed first one-or-two whitespace-delimited
tokens "Navi Mumbai". -/
theorem c2_counterexample :
    (normRow threeTokenLocJob).city = "Navi Mumbai Area"
    ∧ specFirstTwoTokens (pyTitle "Navi Mumbai Area") = "Navi Mumbai"
    ∧ ("Navi Mumbai Area" : String) ≠ "Navi Mumbai" := by
  decide

/-- C2 (amended): whenever the stripped location is nonempty and does not
begin with a comma — in particular whenever it contains a comma later, and
also when it contains no comma at all — the city is the stripped text
before the first comma (the whole stripped location when no comma exists);
the one-or-two-token fallback fires only for locations that begin with a
comma after stripping.  For "Bangalore, Karnataka" the city is "Bangalore"
(see the witness). -/
theorem c2_city_amended (loc : String) (h1 : pstrip loc ≠ "")
    (h2 : (pstrip loc).toList.head? ≠ some ',') :
    extract_city loc
      = pstrip ⟨(pstrip loc).toList.takeWhile (fun x => !(x == ','))⟩ := by
  by_cases hU : loc = "Unknown"
  · subst hU; decide
  · by_cases hE : loc = ""
    · subst hE; exact absurd (by decide) h1
    · simp only [extract_city]
      rw [if_neg (fun hor => hor.elim hE hU)]
      cases hL : (pstrip loc).toList with
      | nil => exact absurd (String.ext hL) h1
      | cons c cs =>
        rw [hL] at h2
        have hc' : c ≠ ',' := by simpa using h2
        have hc : (c == ',') = false := beq_eq_false_iff_ne.mpr hc'
        simp [cityPatOne, hc]

/-- C2 (witness): the amended theorem applied to "Bangalore, Karnataka"
yields the city "Bangalore". -/
theorem c2_city_witness : extract_city "Bangalore, Karnataka" = "Bangalore" := by
  have h := c2_city_amended "Bangalore, Karnataka" (by decide) (by decide)
  exact h.trans (by decide)

/-- C3 (counterexample): a record whose location cell is the empty string
keeps an empty (not "Unknown") location after preprocessing: `fillna`
replaces only null cells, never empty strings. -/
theorem c3_counterexample :
    (normRow locEmptyJob).location = "" ∧ ("" : String) ≠ "Unknown" := by
  decide

/-- C3 (amended): preprocessing sets the location to the title-casing of
the raw location with null (missing) cells — not empty strings — defaulted
to "Unknown"; in particular a missing location becomes "Unknown". -/
theorem c3_amended (r : RawJob) :
    (normRow r).location = pyTitle (r.location.getD "Unknown")
    ∧ (r.location = none → (normRow r).location = "Unknown") := by
  refine ⟨rfl, fun h => ?_⟩
  have : (normRow r).location = pyTitle (r.location.getD "Unknown") := rfl
  rw [this, h]
  decide

/-- C3 (witness): the amended theorem at a record with a missing location
cell: the normalized location is "Unknown". -/
theorem c3_witness : (normRow locMissingJob).location = "Unknown" :=
  (c3_amended locMissingJob).2 rfl

/-- C4: the `get_top_skills` counter entry for a keyword (stored under its
title-cased form) equals the number of records whose lowered skills text
contains that keyword as a substring. -/
theorem c4_top_skills (jobs : List RawJob) (k : String) (hk : k ∈ skill_keywords) :
    top_skills_count jobs (pyTitle k)
      = (jobs.filter (fun r => pyIn k (pyLower r.skills))).length := by
  have key : ∀ l : List RawJob,
      ((l.map (fun r => extract_skills r.skills)).flatten).count (pyTitle k)
        = (l.filter (fun r => pyIn k (pyLower r.skills))).length := by
    intro l
    induction l with
    | nil => rfl
    | cons r t ih =>
      rw [List.map_cons, List.flatten_cons, List.count_append, ih,
        count_extract_skills r.skills k hk, List.filter_cons]
      by_cases h : pyIn k (pyLower r.skills)
      · simp [h]; omega
      · simp [h]
  rw [top_skills_count, all_skills, preprocess_eq_map, List.map_map]
  exact key jobs

/-- C4 (witness): the theorem at the keyword "python" over two concrete
records, one mentioning Python, one not: the counter entry is 1. -/
theorem c4_witness :
    ("python" ∈ skill_keywords)
    ∧ top_skills_count [pythonSkillsJob, excelSkillsJob] (pyTitle "python") = 1 := by
  refine ⟨by decide, ?_⟩
  have h := c4_top_skills [pythonSkillsJob, excelSkillsJob] "python" (by decide)
  exact h.trans (by decide)

/-- C5: preprocessing never drops or adds rows: the normalized table has
exactly one row per input record. -/
theorem c5_row_count (jobs : List RawJob) : (preprocess jobs).length = jobs.length := by
  rw [preprocess_eq_map, List.length_map]

/-- C6: for every nonempty salary text, cleaning replaces it with the first
substring matching the numeric-with-optional-suffix pattern when one
exists and keeps the text unchanged otherwise; in particular "6-8 LPA" is
reduced to "6". -/
theorem c6_salary_clean (s : String) (h : s ≠ "") :
    clean_salary_field (some s)
      = some (match salarySearch s.toList with
              | some m => (⟨m⟩ : String)
              | none => s)
    ∧ clean_salary_field (some "6-8 LPA") = some "6"
    ∧ (salarySearch s.toList = none → clean_salary_field (some s) = some s) := by
  refine ⟨?_, by decide, fun hn => ?_⟩
  · simp [clean_salary_field, h, cleanSalaryText]
  · have hn' : salarySearch s.data = none := hn
    simp [clean_salary_field, h, cleanSalaryText, hn']

/-- C6 (witness): the theorem at the demo salary text "6-8 LPA", whose
cleaned form is "6". -/
theorem c6_witness :
    ("6-8 LPA" : String) ≠ "" ∧ clean_salary_field (some "6-8 LPA") = some "6" :=
  ⟨by decide, (c6_salary_clean "6-8 LPA" (by decide)).2.1⟩

/-- C7: the extracted skills of any skills text are exactly the keywords of
the fixed set contained in its lowering, each title-cased, in keyword-set
order; empty skills text yields the empty sequence. -/
theorem c7_extract_skills :
    (∀ s : String, extract_skills s
        = (skill_keywords.filter (fun k => pyIn k (pyLower s))).map pyTitle)
    ∧ extract_skills "" = [] :=
  ⟨extract_skills_eq, by decide⟩

/-- C8: an empty input yields a zero-row table and an all-zero summary
(every operation is total, so no error is possible). -/
theorem c8_empty_input :
    preprocess ([] : List RawJob) = []
    ∧ generate_summary ([] : List RawJob)
      = { total_jobs := 0, unique_companies := 0, unique_locations := 0,
          jobs_with_salary := 0 } := by
  exact ⟨rfl, rfl⟩

/-- C9: a page whose fetch raises contributes no records and does not abort
the run: the scrape result is the records of the pages before it followed
by the records of all pages after it. -/
theorem c9_page_error_skipped (pre post : List (Except String (List RawJob)))
    (e : String) :
    scrape_jobs (pre ++ Except.error e :: post)
      = scrape_jobs pre ++ scrape_jobs post := by
  show List.foldl scrapeStep [] (pre ++ Except.error e :: post) = _
  rw [List.foldl_append, List.foldl_cons]
  show List.foldl scrapeStep (scrape_jobs pre) post = _
  exact scrape_foldl_acc post (scrape_jobs pre)

/-- C10: because matching is plain substring containment and "r" is a
keyword, any record whose lowered skills text contains the letter `r`
anywhere gets "R" among its extracted skills. -/
theorem c10_r_substring (s : String) (h : 'r' ∈ (pyLower s).toList) :
    "R" ∈ extract_skills s := by
  rw [extract_skills_eq]
  have hr : pyIn "r" (pyLower s) = true := subAux_singleton 'r' (pyLower s).toList h
  have hmem : "r" ∈ skill_keywords.filter (fun k => pyIn k (pyLower s)) :=
    List.mem_filter.mpr ⟨by decide, hr⟩
  have ht : pyTitle "r" = "R" := by decide
  exact ht ▸ List.mem_map_of_mem pyTitle hmem

/-- C10 (witness): the theorem at the skills text "Excel and reporting",
which never mentions the R language yet contains the letter `r`: "R" is
reported as an extracted skill. -/
theorem c10_witness :
    ('r' ∈ (pyLower "Excel and reporting").toList)
    ∧ "R" ∈ extract_skills "Excel and reporting" :=
  ⟨by decide, c10_r_substring "Excel and reporting" (by decide)⟩

end JobScraperAnalyzer
